import Mathlib

/-!
Verification of the keepers-jobs-monitor staleness scanner, registry reader
and Discord alert dispatcher against their natural-language specification.

The TypeScript sources are shallowly embedded: stateful service classes
become explicit state-passing functions, the lru-cache dependency is modelled
as an association list with per-entry insertion time (TTL expiry checked at
read time, least-recently-used eviction on insert beyond capacity), RPC and
HTTP effects become oracle functions passed as parameters, and timestamps are
naturals counting milliseconds.
-/

namespace JobMonitor

/-- Model of the lru-cache package as used by the repository: entries are kept
most-recent-first; a get returns a value only when the entry age is below the
ttl and bumps the entry to the front; a set inserts at the front, replaces any
previous entry for the key, and drops the least recently used entries beyond
maxSize. -/
structure LRUCache (κ α : Type) where
  maxSize : Nat
  ttl : Nat
  entries : List (κ × Nat × α)
deriving DecidableEq

/-- Cache read at time now: a hit requires an entry younger than ttl; a hit
moves the entry to the front (recency update); expired entries are treated as
absent, matching lru-cache get returning undefined for stale entries. -/
def LRUCache.get [BEq κ] (c : LRUCache κ α) (k : κ) (now : Nat) :
    Option α × LRUCache κ α :=
  match c.entries.find? (fun e => e.1 == k) with
  | none => (none, c)
  | some e =>
    if now < e.2.1 + c.ttl then
      (some e.2.2,
       { c with entries := e :: c.entries.filter (fun x => !(x.1 == k)) })
    else (none, c)

/-- Cache write at time now: front insertion, key dedup, capacity trim. -/
def LRUCache.set [BEq κ] (c : LRUCache κ α) (k : κ) (v : α) (now : Nat) :
    LRUCache κ α :=
  { c with entries :=
      (((k, now, v) :: c.entries.filter (fun x => !(x.1 == k))).take c.maxSize) }

/-- TransactionRef: the fields of an ethers TransactionResponse that the
scanner inspects (src/services/job-monitor.ts matching loop). -/
structure Tx where
  toAddr : Option String
  data : String
deriving DecidableEq

/-- A block as returned by provider.getBlockWithTransactions. -/
structure EthBlock where
  number : Nat
  timestamp : Nat
  hash : String
  transactions : List Tx
deriving DecidableEq

/-- BlockCache interface of src/services/job-monitor.ts. -/
structure BlockCacheEntry where
  blockNumber : Nat
  timestamp : Nat
  hash : String
  transactions : List Tx
deriving DecidableEq

/-- JobStatus interface of src/services/job-monitor.ts; lastChecked is a
millisecond timestamp (JS Date). -/
structure JobStatus where
  address : String
  lastWorkedBlock : Option Nat
  isStalled : Bool
  lastChecked : Nat
deriving DecidableEq

/-- The two private caches of JobMonitorService. -/
structure JobMonitorState where
  blockCache : LRUCache Nat BlockCacheEntry
  jobStatusCache : LRUCache String JobStatus
deriving DecidableEq

/-- JobMonitorService constructor: blockCache max 50, ttl 5 min; jobStatusCache
max 1000, ttl 2 min (milliseconds). -/
def JobMonitorState.init : JobMonitorState :=
  { blockCache := { maxSize := 50, ttl := 1000 * 60 * 5, entries := [] }
    jobStatusCache := { maxSize := 1000, ttl := 1000 * 60 * 2, entries := [] } }

/-- The chain oracle: what provider.getBlockWithTransactions would yield for a
block number; none models both a null block and a thrown RPC error, which the
service maps to the same null result. -/
def Chain : Type := Nat → Option EthBlock

/-- JS String.prototype.toLowerCase, modelled per character (the addresses
and selectors involved are ASCII hex strings). -/
def jsToLower (s : String) : String := String.mk (s.toList.map Char.toLower)

/-- JS String.prototype.startsWith on the character lists. -/
def jsStartsWith (s p : String) : Bool := p.toList.isPrefixOf s.toList

/-- The transaction match of the scan loop: tx.to equals the job address
case-insensitively and tx.data starts with the work(bytes32,bytes) selector
(the selector string is a parameter because its concrete value is a keccak256
prefix computed by ethers at runtime). -/
def txMatches (workSelector jobAddress : String) (tx : Tx) : Bool :=
  (match tx.toAddr with
   | some t => jsToLower t == jsToLower jobAddress
   | none => false) && jsStartsWith tx.data workSelector

/-- Whether the chain block b holds a transaction matching the job. -/
def blockHasWorkTx (chain : Chain) (workSelector jobAddress : String)
    (b : Nat) : Bool :=
  match chain b with
  | some blk => blk.transactions.any (txMatches workSelector jobAddress)
  | none => false

/-- getBlockWithTransactions of JobMonitorService: consult the block cache,
else ask the chain; a successful fetch is cached; a null or failed fetch
returns none and caches nothing. The third component counts chain (RPC)
reads performed. -/
def getBlockWithTransactions (chain : Chain) (st : JobMonitorState)
    (blockNumber now : Nat) :
    Option BlockCacheEntry × JobMonitorState × Nat :=
  match st.blockCache.get blockNumber now with
  | (some cached, bc) => (some cached, { st with blockCache := bc }, 0)
  | (none, bc) =>
    let st1 := { st with blockCache := bc }
    match chain blockNumber with
    | none => (none, st1, 1)
    | some block =>
      let entry : BlockCacheEntry :=
        { blockNumber := block.number, timestamp := block.timestamp,
          hash := block.hash, transactions := block.transactions }
      (some entry,
       { st1 with blockCache := st1.blockCache.set blockNumber entry now }, 1)

/-- The descending scan loop of getLastWorkedBlock. The counter c stands for
the remaining range: the block examined at step c+1 is fromBlock + c, so the
scan starts at toBlock and walks down to fromBlock exactly as the source for
loop does. On the first (highest) match the job status cache is updated with a
non-stalled entry and the block number is returned. -/
def scanLoop (chain : Chain) (workSelector jobAddress : String)
    (fromBlock now : Nat) :
    Nat → JobMonitorState → Option Nat × JobMonitorState × Nat
  | 0, st => (none, st, 0)
  | c + 1, st =>
    let blockNumber := fromBlock + c
    let fetched := getBlockWithTransactions chain st blockNumber now
    match fetched.1 with
    | none =>
      let deeper := scanLoop chain workSelector jobAddress fromBlock now c fetched.2.1
      (deeper.1, deeper.2.1, fetched.2.2 + deeper.2.2)
    | some block =>
      match block.transactions.find? (txMatches workSelector jobAddress) with
      | some _tx =>
        let status : JobStatus :=
          { address := jobAddress, lastWorkedBlock := some blockNumber,
            isStalled := false, lastChecked := now }
        (some blockNumber,
         { fetched.2.1 with jobStatusCache :=
             fetched.2.1.jobStatusCache.set jobAddress status now },
         fetched.2.2)
      | none =>
        let deeper := scanLoop chain workSelector jobAddress fromBlock now c fetched.2.1
        (deeper.1, deeper.2.1, fetched.2.2 + deeper.2.2)

/-- The scan part of getLastWorkedBlock: run the loop over
toBlock + 1 - fromBlock blocks (zero iterations when fromBlock exceeds
toBlock, as in the source where the for condition fails at once); cache a
stalled status when nothing was found. -/
def scanAndCache (chain : Chain) (workSelector jobAddress : String)
    (fromBlock toBlock now : Nat) (st : JobMonitorState) :
    Option Nat × JobMonitorState × Nat :=
  let r := scanLoop chain workSelector jobAddress fromBlock now
      (toBlock + 1 - fromBlock) st
  match r.1 with
  | some b => (some b, r.2.1, r.2.2)
  | none =>
    let status : JobStatus :=
      { address := jobAddress, lastWorkedBlock := none,
        isStalled := true, lastChecked := now }
    (none,
     { r.2.1 with jobStatusCache :=
         r.2.1.jobStatusCache.set jobAddress status now },
     r.2.2)

/-- getLastWorkedBlock of JobMonitorService. The cached short-circuit needs a
fresh cache hit, a non-null lastWorkedBlock and lastChecked newer than two
minutes ago; lastChecked + 120000 > now is the integer form of the source
comparison lastChecked > now - 120000. -/
def getLastWorkedBlock (chain : Chain) (workSelector jobAddress : String)
    (fromBlock toBlock now : Nat) (st : JobMonitorState) :
    Option Nat × JobMonitorState × Nat :=
  let looked := st.jobStatusCache.get jobAddress now
  let st1 := { st with jobStatusCache := looked.2 }
  match looked.1 with
  | some cachedStatus =>
    if cachedStatus.lastWorkedBlock.isSome
        && decide (now < cachedStatus.lastChecked + 120000) then
      (cachedStatus.lastWorkedBlock, st1, 0)
    else
      scanAndCache chain workSelector jobAddress fromBlock toBlock now st1
  | none =>
    scanAndCache chain workSelector jobAddress fromBlock toBlock now st1

/-- checkJobsEfficiently of JobMonitorService: the Promise.all fan-out over
the address list, modelled as left-to-right evaluation threading the shared
caches; results are collected in input-index order exactly as Promise.all
does. The third component counts chain reads. -/
def checkJobsEfficiently (chain : Chain) (workSelector : String)
    (jobAddresses : List String) (fromBlock toBlock now : Nat)
    (st : JobMonitorState) : List JobStatus × JobMonitorState × Nat :=
  match jobAddresses with
  | [] => ([], st, 0)
  | address :: rest =>
    let r := getLastWorkedBlock chain workSelector address fromBlock toBlock now st
    let rest' := checkJobsEfficiently chain workSelector rest fromBlock toBlock now r.2.1
    ({ address := address, lastWorkedBlock := r.1,
       isStalled := r.1.isNone, lastChecked := now } :: rest'.1,
     rest'.2.1, r.2.2 + rest'.2.2)

/-- The cached-status short-circuit test of getLastWorkedBlock as one Bool:
a fresh job-status cache hit whose lastWorkedBlock is non-null and whose
lastChecked is newer than two minutes before now. -/
def shortCircuits (st : JobMonitorState) (addr : String) (now : Nat) : Bool :=
  match (st.jobStatusCache.get addr now).1 with
  | some c => c.lastWorkedBlock.isSome && decide (now < c.lastChecked + 120000)
  | none => false

/-- The block-cache payload built from a fetched block. -/
def entryOfBlock (blk : EthBlock) : BlockCacheEntry :=
  { blockNumber := blk.number, timestamp := blk.timestamp,
    hash := blk.hash, transactions := blk.transactions }

/-- Every block-cache entry is the image of the chain block with its key:
the invariant the scan maintains, trivially true of the empty cache. -/
def CacheAgrees (chain : Chain) (bc : LRUCache Nat BlockCacheEntry) : Prop :=
  ∀ e ∈ bc.entries, ∃ blk, chain e.1 = some blk ∧ e.2.2 = entryOfBlock blk

/-- Reference form of the descending scan outcome: the first match walking
down from fromB + c - 1 to fromB, hence the highest matching block number. -/
def descFind (chain : Chain) (sel addr : String) (fromB : Nat) :
    Nat → Option Nat
  | 0 => none
  | c + 1 =>
    if blockHasWorkTx chain sel addr (fromB + c) then some (fromB + c)
    else descFind chain sel addr fromB c

/-- Concrete chain used by the C1 witness: empty blocks up to number 6. -/
def c1Chain : Chain := fun b =>
  if b ≤ 6 then
    some { number := b, timestamp := 0, hash := "h", transactions := [] }
  else none

/-- Concrete chain used by the C5 witness: block 0 holds one matching call. -/
def c5Chain : Chain := fun b =>
  if b == 0 then
    some { number := 0, timestamp := 0, hash := "h",
           transactions := [{ toAddr := some "0xA", data := "0xwork" }] }
  else none

end JobMonitor

namespace Jobs2

/-! Model of src/unnamed/part_002: the free-function variant of the scanner.
checkMultipleJobs fans getLastWorkedBlock out with Promise.allSettled; a
rejected per-job promise is replaced by a stalled placeholder object. The
per-job evaluation is abstracted as an oracle from address to either a
rejection reason or a resolved optional block number. -/

/-- The object literal returned per job by checkMultipleJobs. The source
literals carry exactly the fields address, lastWorkedBlock and isStalled; the
optional error field records what the specification claims the rejected case
additionally carries, so its absence in the code is expressible: the code
never sets it, hence it is none on every path. -/
structure MultiJobResult where
  address : String
  lastWorkedBlock : Option Nat
  isStalled : Bool
  error : Option String
deriving DecidableEq

/-- checkMultipleJobs of part_002 over an evaluation oracle: a fulfilled
promise yields the computed status, a rejected one is mapped (in the
allSettled result handler) to a stalled entry for the same input address;
the rejection reason is only logged, not stored. -/
def checkMultipleJobs (evalJob : String → Except String (Option Nat))
    (jobAddresses : List String) : List MultiJobResult :=
  jobAddresses.map (fun address =>
    match evalJob address with
    | .ok lastWorkedBlock =>
      { address := address, lastWorkedBlock := lastWorkedBlock,
        isStalled := lastWorkedBlock.isNone, error := none }
    | .error _reason =>
      { address := address, lastWorkedBlock := none,
        isStalled := true, error := none })

end Jobs2

namespace Sequencer

/-! Model of the SequencerService of src/unnamed/part_003. The contract is
abstracted as one oracle for numJobs and one for jobAt; a call either rejects
with a reason or resolves. -/

/-- The jobs cache of SequencerService (lru-cache, max 10, ttl 10 min). -/
structure SeqState where
  jobsCache : JobMonitor.LRUCache String (List String)
deriving DecidableEq

/-- SequencerService constructor state. -/
def SeqState.init : SeqState :=
  { jobsCache := { maxSize := 10, ttl := 1000 * 60 * 10, entries := [] } }

/-- The batched index fetch of getAllJobs: indices are grouped in batches of
20 processed in order (the source for loop stepping i by batchSize); within a
batch the jobAt promises are combined with Promise.all, so one rejection
rejects the whole call. -/
def fetchBatches (jobAtR : Nat → Except String String) (jobCount : Nat)
    (i : Nat) (acc : List String) : Except String (List String) :=
  if _h : i < jobCount then
    let batchEnd := min (i + 20) jobCount
    match (List.range' i (batchEnd - i)).mapM jobAtR with
    | .error e => .error e
    | .ok batchResults =>
      fetchBatches jobAtR jobCount batchEnd (acc ++ batchResults)
  else .ok acc
termination_by jobCount - i
decreasing_by
  have : i < min (i + 20) jobCount := by omega
  omega

/-- getAllJobs of SequencerService: cache check, numJobs, then batched
Promise.all fetches; a single failing jobAt rejects the whole call. -/
def getAllJobs (numJobsR : Except String Nat)
    (jobAtR : Nat → Except String String) (st : SeqState) (now : Nat) :
    Except String (List String) × SeqState :=
  match st.jobsCache.get "all-jobs" now with
  | (some cached, c) => (.ok cached, { jobsCache := c })
  | (none, c) =>
    match numJobsR with
    | .error e => (.error e, { jobsCache := c })
    | .ok jobCount =>
      match fetchBatches jobAtR jobCount 0 [] with
      | .error e => (.error e, { jobsCache := c })
      | .ok allJobs =>
        (.ok allJobs, { jobsCache := c.set "all-jobs" allJobs now })

/-- The Promise.allSettled collection of getAllJobsOptimized: fulfilled values
are pushed in index order, rejected ones are skipped (only logged). -/
def collectFulfilled : List (Except String String) → List String
  | [] => []
  | .ok v :: rest => v :: collectFulfilled rest
  | .error _ :: rest => collectFulfilled rest

/-- getAllJobsOptimized of SequencerService: cache check, numJobs, early
return of the empty list when the count is zero (without touching the cache,
as in the source), full parallel fan-out with allSettled, failures dropped. -/
def getAllJobsOptimized (numJobsR : Except String Nat)
    (jobAtR : Nat → Except String String) (st : SeqState) (now : Nat) :
    Except String (List String) × SeqState :=
  match st.jobsCache.get "all-jobs-optimized" now with
  | (some cached, c) => (.ok cached, { jobsCache := c })
  | (none, c) =>
    match numJobsR with
    | .error e => (.error e, { jobsCache := c })
    | .ok numJobs =>
      if numJobs == 0 then (.ok [], { jobsCache := c })
      else
        let allJobs := collectFulfilled ((List.range numJobs).map jobAtR)
        (.ok allJobs, { jobsCache := c.set "all-jobs-optimized" allJobs now })

end Sequencer

namespace Discord

/-! Model of DiscordService of src/services/discord.ts. HTTP is abstracted as
an oracle from a global attempt index to the outcome of that POST; the model
records a trace of POSTs, suspensions and fallback invocations. The payload
text of messages is abstracted to the message kind (embed versus plain text);
the error strings the dispatcher builds are kept because the terminal error
aggregation is under scrutiny. -/

/-- DiscordError of src/types/errors.ts: message plus optional HTTP status.
The instanceof DiscordError test of the source is represented by statusCode
being present, which coincides on every error the dispatcher handles. -/
structure DiscordErr where
  message : String
  statusCode : Option Nat
deriving DecidableEq

def MAX_RETRIES : Nat := 3
def RETRY_DELAY : Nat := 1000

/-- What one fetch of the webhook yields: a 2xx response, a non-2xx response
with status, optional retry-after header (seconds) and body text, or a
transport error thrown by fetch itself. -/
inductive AttemptOutcome where
  | ok
  | http (status : Nat) (retryAfter : Option Nat) (body : String)
  | transportError (msg : String)
deriving DecidableEq

/-- Message shape: rich embed payload or plain text content. -/
inductive MsgKind where
  | embed
  | simpleText
deriving DecidableEq

/-- Observable steps of a sendWithRetry run. -/
inductive SendEvent where
  | post (kind : MsgKind)
  | sleep (ms : Nat)
  | fallback
deriving DecidableEq

/-- The DiscordError built from a non-2xx response (statusText omitted from
the model; it carries no branching information). -/
def mkHttpErr (status : Nat) (body : String) : DiscordErr :=
  { message := "Discord API error: " ++ toString status ++ " - " ++ body,
    statusCode := some status }

/-- How the retry loop of sendWithRetry ends. -/
inductive LoopResult where
  | success
  | thrown (e : DiscordErr)
  | exhausted (lastError : Option DiscordErr)
deriving DecidableEq

/-- The attempt loop of sendWithRetry: remaining counts the attempts left,
attempt is the 1-based attempt number, idx the global POST index. A 2xx
returns; 404, 401 and 403 responses are thrown, caught, and rethrown by the
catch guard; a 429 suspends for the retry-after duration (default
RETRY_DELAY) before continuing; any other non-2xx records the error and
continues at once with no suspension; a transport error records the error and
suspends RETRY_DELAY times the attempt number, but only before a non-final
attempt. -/
def attemptLoop (net : Nat → AttemptOutcome) (kind : MsgKind) :
    Nat → Nat → Nat → Option DiscordErr →
    LoopResult × List SendEvent × Nat
  | 0, _attempt, idx, lastError => (.exhausted lastError, [], idx)
  | remaining + 1, attempt, idx, _lastError =>
    match net idx with
    | .ok => (.success, [.post kind], idx + 1)
    | .http status retryAfter body =>
      let e := mkHttpErr status body
      if status == 404 || status == 401 || status == 403 then
        (.thrown e, [.post kind], idx + 1)
      else if status == 429 then
        let delay := match retryAfter with
          | some secs => secs * 1000
          | none => RETRY_DELAY
        let next := attemptLoop net kind remaining (attempt + 1) (idx + 1) (some e)
        (next.1, .post kind :: .sleep delay :: next.2.1, next.2.2)
      else
        let next := attemptLoop net kind remaining (attempt + 1) (idx + 1) (some e)
        (next.1, .post kind :: next.2.1, next.2.2)
    | .transportError msg =>
      let e : DiscordErr := { message := msg, statusCode := none }
      if attempt < MAX_RETRIES then
        let next := attemptLoop net kind remaining (attempt + 1) (idx + 1) (some e)
        (next.1, .post kind :: .sleep (RETRY_DELAY * attempt) :: next.2.1, next.2.2)
      else
        let next := attemptLoop net kind remaining (attempt + 1) (idx + 1) (some e)
        (next.1, .post kind :: next.2.1, next.2.2)

/-- Overall outcome of sendWithRetry, including fallback handling. outOfFuel
marks runs exceeding the modelled recursion depth of the fallback chain (the
source recursion is unbounded). -/
inductive SendOutcome where
  | success
  | raised (e : DiscordErr)
  | outOfFuel
deriving DecidableEq

/-- sendWithRetry of DiscordService, including sendFallbackMessage and its
recursion through sendSimpleMessage. After an exhausted loop with a recorded
error, sendFallbackMessage runs: it sends the condensed plain-text message
through the same retrying path; when that inner call throws, the catch
replaces it with the terminal aggregate DiscordError carrying only the
original failure message and status 500. -/
def sendWithRetry (net : Nat → AttemptOutcome) :
    Nat → MsgKind → Nat → SendOutcome × List SendEvent × Nat
  | 0, _kind, idx => (.outOfFuel, [], idx)
  | fuel + 1, kind, idx =>
    match attemptLoop net kind MAX_RETRIES 1 idx none with
    | (.success, evs, idx') => (.success, evs, idx')
    | (.thrown e, evs, idx') => (.raised e, evs, idx')
    | (.exhausted none, evs, idx') => (.success, evs, idx')
    | (.exhausted (some lastError), evs, idx') =>
      let fb := sendWithRetry net fuel .simpleText idx'
      match fb.1 with
      | .success => (.success, evs ++ SendEvent.fallback :: fb.2.1, fb.2.2)
      | .raised _e =>
        let terminal : DiscordErr :=
          { message := "All Discord communication methods failed. Original: "
              ++ lastError.message,
            statusCode := some 500 }
        (.raised terminal, evs ++ SendEvent.fallback :: fb.2.1, fb.2.2)
      | .outOfFuel => (.outOfFuel, evs ++ SendEvent.fallback :: fb.2.1, fb.2.2)

/-- Number of fallback invocations in a trace. -/
def fallbackCount (evs : List SendEvent) : Nat :=
  evs.countP (fun e => e == SendEvent.fallback)

/-- JS string includes: sub occurs contiguously inside s. -/
def jsIncludes (s sub : String) : Bool :=
  decide (List.IsInfix sub.toList s.toList)

/-- The DiscordService constructor: an empty URL (the only falsy string) and
a URL without the Discord webhook marker substring are rejected with a
DiscordError; otherwise the instance stores the URL. -/
def constructorCheck (webhookUrl : String) : Except DiscordErr String :=
  if webhookUrl == "" then
    .error { message := "Discord webhook URL is required", statusCode := none }
  else if !(jsIncludes webhookUrl "discord.com/api/webhooks") then
    .error { message := "Invalid Discord webhook URL format", statusCode := none }
  else
    .ok webhookUrl

end Discord

/-! ## Theorems -/

namespace JobMonitor

theorem lru_get_snd_maxSize [BEq κ] (c : LRUCache κ α) (k : κ) (now : Nat) :
    (c.get k now).2.maxSize = c.maxSize := by
  unfold LRUCache.get
  split
  · rfl
  · split <;> rfl

theorem lru_get_snd_ttl [BEq κ] (c : LRUCache κ α) (k : κ) (now : Nat) :
    (c.get k now).2.ttl = c.ttl := by
  unfold LRUCache.get
  split
  · rfl
  · split <;> rfl

theorem lru_get_snd_mem [BEq κ] {c : LRUCache κ α} {k : κ} {now : Nat}
    {x : κ × Nat × α} (hx : x ∈ (c.get k now).2.entries) : x ∈ c.entries := by
  unfold LRUCache.get at hx
  split at hx
  · exact hx
  · rename_i e hf
    split at hx
    · rcases List.mem_cons.mp hx with h | h
      · exact h ▸ List.mem_of_find?_eq_some hf
      · exact (List.mem_filter.mp h).1
    · exact hx

theorem lru_get_fst_some [BEq κ] [LawfulBEq κ] {c : LRUCache κ α} {k : κ}
    {now : Nat} {v : α} (h : (c.get k now).1 = some v) :
    ∃ t, (k, t, v) ∈ c.entries := by
  unfold LRUCache.get at h
  split at h
  · simp at h
  · rename_i e hf
    split at h
    · have hv : e.2.2 = v := by simpa using h
      have hk : e.1 = k := by simpa using List.find?_some hf
      have hm := List.mem_of_find?_eq_some hf
      exact ⟨e.2.1, by rw [← hk, ← hv]; exact hm⟩
    · simp at h

theorem lru_get_none_of_empty [BEq κ] (c : LRUCache κ α) (k : κ) (now : Nat)
    (h : c.entries = []) : c.get k now = (none, c) := by
  unfold LRUCache.get
  rw [h]
  rfl

theorem lru_get_head_hit [BEq κ] [LawfulBEq κ] (c : LRUCache κ α) (k : κ)
    (t : Nat) (v : α) (rest : List (κ × Nat × α)) (now : Nat)
    (he : c.entries = (k, t, v) :: rest) (hfresh : now < t + c.ttl) :
    (c.get k now).1 = some v := by
  unfold LRUCache.get
  rw [he, List.find?_cons_of_pos _ (by simp)]
  simp [hfresh]

theorem lru_set_maxSize [BEq κ] (c : LRUCache κ α) (k : κ) (v : α)
    (now : Nat) : (c.set k v now).maxSize = c.maxSize := rfl

theorem lru_set_ttl [BEq κ] (c : LRUCache κ α) (k : κ) (v : α)
    (now : Nat) : (c.set k v now).ttl = c.ttl := rfl

theorem lru_set_mem [BEq κ] {c : LRUCache κ α} {k : κ} {v : α} {now : Nat}
    {x : κ × Nat × α} (hx : x ∈ (c.set k v now).entries) :
    x = (k, now, v) ∨ x ∈ c.entries := by
  unfold LRUCache.set at hx
  have hx' := List.mem_of_mem_take hx
  rcases List.mem_cons.mp hx' with h | h
  · exact Or.inl h
  · exact Or.inr (List.mem_filter.mp h).1

theorem lru_set_entries_head [BEq κ] (c : LRUCache κ α) (k : κ) (v : α)
    (now : Nat) (hmax : 0 < c.maxSize) :
    ∃ rest, (c.set k v now).entries = (k, now, v) :: rest := by
  unfold LRUCache.set
  obtain ⟨m, hm⟩ := Nat.exists_eq_succ_of_ne_zero (Nat.pos_iff_ne_zero.mp hmax)
  rw [hm, List.take_succ_cons]
  exact ⟨_, rfl⟩

theorem getBWT_jobCache (chain : Chain) (st : JobMonitorState)
    (b now : Nat) :
    (getBlockWithTransactions chain st b now).2.1.jobStatusCache
      = st.jobStatusCache := by
  unfold getBlockWithTransactions
  split
  · rfl
  · split <;> rfl

theorem getBWT_some_of_chain (chain : Chain) (st : JobMonitorState)
    (b now : Nat) (blk : EthBlock)
    (hag : CacheAgrees chain st.blockCache) (hb : chain b = some blk) :
    (getBlockWithTransactions chain st b now).1 = some (entryOfBlock blk) := by
  unfold getBlockWithTransactions
  split
  · rename_i cached bc heq
    have h1 : (st.blockCache.get b now).1 = some cached := by rw [heq]
    obtain ⟨t, hm⟩ := lru_get_fst_some h1
    obtain ⟨blk', hb', he'⟩ := hag _ hm
    simp only [Prod.fst] at hb' he'
    rw [hb] at hb'
    cases hb'
    simpa using he'
  · split
    · rename_i hnone
      rw [hb] at hnone
      cases hnone
    · rename_i block hsome
      rw [hb] at hsome
      cases hsome
      rfl

theorem getBWT_agrees (chain : Chain) (st : JobMonitorState) (b now : Nat)
    (hag : CacheAgrees chain st.blockCache) :
    CacheAgrees chain
      (getBlockWithTransactions chain st b now).2.1.blockCache := by
  unfold getBlockWithTransactions
  split
  · rename_i cached bc heq
    intro e he
    have hbc : bc = (st.blockCache.get b now).2 := by rw [heq]
    exact hag _ (lru_get_snd_mem (hbc ▸ he))
  · rename_i bc heq
    have hbc : bc = (st.blockCache.get b now).2 := by rw [heq]
    split
    · intro e he
      exact hag _ (lru_get_snd_mem (hbc ▸ he))
    · rename_i block hsome
      intro e he
      rcases lru_set_mem he with h | h
      · subst h
        exact ⟨block, hsome, rfl⟩
      · exact hag _ (lru_get_snd_mem (hbc ▸ h))

theorem getBWT_blockCache_fields (chain : Chain) (st : JobMonitorState)
    (b now : Nat) :
    (getBlockWithTransactions chain st b now).2.1.blockCache.maxSize
        = st.blockCache.maxSize
    ∧ (getBlockWithTransactions chain st b now).2.1.blockCache.ttl
        = st.blockCache.ttl := by
  unfold getBlockWithTransactions
  split
  · rename_i cached bc heq
    have hbc : bc = (st.blockCache.get b now).2 := by rw [heq]
    subst hbc
    exact ⟨lru_get_snd_maxSize .., lru_get_snd_ttl ..⟩
  · rename_i bc heq
    have hbc : bc = (st.blockCache.get b now).2 := by rw [heq]
    subst hbc
    split
    · exact ⟨lru_get_snd_maxSize .., lru_get_snd_ttl ..⟩
    · exact ⟨lru_get_snd_maxSize .., lru_get_snd_ttl ..⟩

theorem scanLoop_jobCache_fields (chain : Chain) (sel addr : String)
    (fromB now : Nat) :
    ∀ (c : Nat) (st : JobMonitorState),
      (scanLoop chain sel addr fromB now c st).2.1.jobStatusCache.maxSize
          = st.jobStatusCache.maxSize
      ∧ (scanLoop chain sel addr fromB now c st).2.1.jobStatusCache.ttl
          = st.jobStatusCache.ttl := by
  intro c
  induction c with
  | zero => intro st; exact ⟨rfl, rfl⟩
  | succ c ih =>
    intro st
    have hjc := getBWT_jobCache chain st (fromB + c) now
    simp only [scanLoop]
    split
    · have h := ih (getBlockWithTransactions chain st (fromB + c) now).2.1
      rw [hjc] at h
      exact h
    · split
      · constructor
        · rw [lru_set_maxSize, hjc]
        · rw [lru_set_ttl, hjc]
      · have h := ih (getBlockWithTransactions chain st (fromB + c) now).2.1
        rw [hjc] at h
        exact h

theorem scanLoop_main (chain : Chain) (sel addr : String) (fromB now : Nat) :
    ∀ (c : Nat) (st : JobMonitorState), CacheAgrees chain st.blockCache →
      (∀ k, k < c → (chain (fromB + k)).isSome = true) →
      (scanLoop chain sel addr fromB now c st).1
          = descFind chain sel addr fromB c
      ∧ CacheAgrees chain
          (scanLoop chain sel addr fromB now c st).2.1.blockCache := by
  intro c
  induction c with
  | zero => intro st hag _; exact ⟨rfl, hag⟩
  | succ c ih =>
    intro st hag hfetch
    obtain ⟨blk, hb⟩ :=
      Option.isSome_iff_exists.mp (hfetch c (Nat.lt_succ_self c))
    have hfst := getBWT_some_of_chain chain st (fromB + c) now blk hag hb
    have hagg := getBWT_agrees chain st (fromB + c) now hag
    have hmatch : blockHasWorkTx chain sel addr (fromB + c)
        = blk.transactions.any (txMatches sel addr) := by
      unfold blockHasWorkTx
      rw [hb]
    simp only [scanLoop, hfst]
    cases hfind : blk.transactions.find? (txMatches sel addr) with
    | some tx =>
      have hhas : blockHasWorkTx chain sel addr (fromB + c) = true := by
        rw [hmatch]
        exact List.any_eq_true.mpr
          ⟨tx, List.mem_of_find?_eq_some hfind, List.find?_some hfind⟩
      have hentry : (entryOfBlock blk).transactions.find? (txMatches sel addr)
          = some tx := hfind
      rw [hentry]
      constructor
      · rw [descFind, if_pos hhas]
      · exact hagg
    | none =>
      have hhas : blockHasWorkTx chain sel addr (fromB + c) = false := by
        rw [hmatch]
        exact List.any_eq_false.mpr
          (by intro x hx; exact List.find?_eq_none.mp hfind x hx)
      have hentry : (entryOfBlock blk).transactions.find? (txMatches sel addr)
          = none := hfind
      rw [hentry]
      have hrec := ih (getBlockWithTransactions chain st (fromB + c) now).2.1
        hagg (fun k hk => hfetch k (Nat.lt_succ_of_lt hk))
      constructor
      · rw [hrec.1, descFind, if_neg (by rw [hhas]; simp)]
      · exact hrec.2

theorem scanLoop_found_status (chain : Chain) (sel addr : String)
    (fromB now : Nat) :
    ∀ (c : Nat) (st : JobMonitorState) (B : Nat),
      0 < st.jobStatusCache.maxSize →
      (scanLoop chain sel addr fromB now c st).1 = some B →
      ∃ rest, (scanLoop chain sel addr fromB now c st).2.1.jobStatusCache.entries
        = (addr, now,
            ({ address := addr, lastWorkedBlock := some B,
               isStalled := false, lastChecked := now } : JobStatus)) :: rest := by
  intro c
  induction c with
  | zero => intro st B _ h; cases h
  | succ c ih =>
    intro st B hmax hres
    have hjc := getBWT_jobCache chain st (fromB + c) now
    cases hfe : (getBlockWithTransactions chain st (fromB + c) now).1 with
    | none =>
      simp only [scanLoop, hfe] at hres ⊢
      exact ih _ B (by rw [hjc]; exact hmax) hres
    | some block =>
      cases hfind : block.transactions.find? (txMatches sel addr) with
      | some tx =>
        simp only [scanLoop, hfe, hfind] at hres ⊢
        cases hres
        exact lru_set_entries_head _ addr _ now (by rw [hjc]; exact hmax)
      | none =>
        simp only [scanLoop, hfe, hfind] at hres ⊢
        exact ih _ B (by rw [hjc]; exact hmax) hres

theorem descFind_spec_some (chain : Chain) (sel addr : String) (fromB : Nat) :
    ∀ (c B : Nat), descFind chain sel addr fromB c = some B →
      fromB ≤ B ∧ B < fromB + c
      ∧ blockHasWorkTx chain sel addr B = true
      ∧ ∀ b, B < b → b < fromB + c →
          blockHasWorkTx chain sel addr b = false := by
  intro c
  induction c with
  | zero => intro B h; cases h
  | succ c ih =>
    intro B h
    rw [descFind] at h
    split at h
    · rename_i htrue
      cases h
      refine ⟨Nat.le_add_right .., by omega, htrue, ?_⟩
      intro b hb1 hb2
      omega
    · rename_i hfalse
      obtain ⟨h1, h2, h3, h4⟩ := ih B h
      refine ⟨h1, by omega, h3, ?_⟩
      intro b hb1 hb2
      by_cases hb : b = fromB + c
      · subst hb
        exact Bool.of_not_eq_true hfalse
      · exact h4 b hb1 (by omega)

theorem descFind_spec_none (chain : Chain) (sel addr : String) (fromB : Nat) :
    ∀ (c : Nat), descFind chain sel addr fromB c = none →
      ∀ b, fromB ≤ b → b < fromB + c →
        blockHasWorkTx chain sel addr b = false := by
  intro c
  induction c with
  | zero => intro _ b h1 h2; omega
  | succ c ih =>
    intro h b h1 h2
    rw [descFind] at h
    split at h
    · cases h
    · rename_i hfalse
      by_cases hb : b = fromB + c
      · subst hb
        exact Bool.of_not_eq_true hfalse
      · exact ih h b h1 (by omega)

theorem getLWB_noSC (chain : Chain) (sel addr : String)
    (fromB toB now : Nat) (st : JobMonitorState)
    (hsc : shortCircuits st addr now = false) :
    getLastWorkedBlock chain sel addr fromB toB now st
      = scanAndCache chain sel addr fromB toB now
          { st with jobStatusCache := (st.jobStatusCache.get addr now).2 } := by
  cases hcs : (st.jobStatusCache.get addr now).1 with
  | none => simp only [getLastWorkedBlock, hcs]
  | some cs =>
    unfold shortCircuits at hsc
    rw [hcs] at hsc
    have hsc' : (cs.lastWorkedBlock.isSome
        && decide (now < cs.lastChecked + 120000)) = false := hsc
    simp only [getLastWorkedBlock, hcs]
    rw [if_neg (by rw [hsc']; simp)]

/-- C1: with a well-ordered range, no fresh non-stalled cached status
short-circuiting the call (and a block cache in its initial empty state), and
every block fetch in the range succeeding, getLastWorkedBlock returns the
highest block number in the range holding a transaction to the job address
(case-insensitively) whose data starts with the work(bytes32,bytes) selector;
when no block in the range holds one it returns none and writes a job-status
cache entry with isStalled true and lastWorkedBlock null. -/
theorem getLastWorkedBlock_C1_highest_match_or_stalled (chain : Chain)
    (sel addr : String) (fromB toB now : Nat) (st : JobMonitorState)
    (hrange : fromB ≤ toB)
    (hbc : st.blockCache.entries = [])
    (hmax : 0 < st.jobStatusCache.maxSize)
    (hsc : shortCircuits st addr now = false)
    (hfetch : ∀ b, fromB ≤ b → b ≤ toB → (chain b).isSome = true) :
    ((∃ B, fromB ≤ B ∧ B ≤ toB ∧ blockHasWorkTx chain sel addr B = true) →
      ∃ B, (getLastWorkedBlock chain sel addr fromB toB now st).1 = some B
        ∧ fromB ≤ B ∧ B ≤ toB ∧ blockHasWorkTx chain sel addr B = true
        ∧ ∀ b, B < b → b ≤ toB → blockHasWorkTx chain sel addr b = false)
    ∧ ((∀ b, fromB ≤ b → b ≤ toB → blockHasWorkTx chain sel addr b = false) →
      (getLastWorkedBlock chain sel addr fromB toB now st).1 = none
      ∧ ∃ rest,
          (getLastWorkedBlock chain sel addr fromB toB now
              st).2.1.jobStatusCache.entries
            = (addr, now, ({ address := addr, lastWorkedBlock := none,
                             isStalled := true, lastChecked := now }
                            : JobStatus)) :: rest) := by
  rw [getLWB_noSC chain sel addr fromB toB now st hsc]
  set st1 : JobMonitorState :=
    { st with jobStatusCache := (st.jobStatusCache.get addr now).2 } with hst1
  have hbce : st1.blockCache.entries = [] := hbc
  have hag : CacheAgrees chain st1.blockCache := by
    intro e he
    rw [hbce] at he
    exact absurd he (List.not_mem_nil e)
  set cnt := toB + 1 - fromB with hcnt
  have hfr : fromB + cnt = toB + 1 := by omega
  have hfetch' : ∀ k, k < cnt → (chain (fromB + k)).isSome = true := by
    intro k hk
    exact hfetch (fromB + k) (Nat.le_add_right ..) (by omega)
  have hmain := scanLoop_main chain sel addr fromB now cnt st1 hag hfetch'
  have hjcf := scanLoop_jobCache_fields chain sel addr fromB now cnt st1
  have hmax1 : 0 < st1.jobStatusCache.maxSize := by
    have h := lru_get_snd_maxSize st.jobStatusCache addr now
    show 0 < (st.jobStatusCache.get addr now).2.maxSize
    omega
  constructor
  · rintro ⟨B0, hB1, hB2, hB3⟩
    cases hd : descFind chain sel addr fromB cnt with
    | none =>
      have hfalse := descFind_spec_none chain sel addr fromB cnt hd B0 hB1
        (by omega)
      rw [hB3] at hfalse
      simp at hfalse
    | some B =>
      obtain ⟨h1, h2, h3, h4⟩ := descFind_spec_some chain sel addr fromB cnt B hd
      refine ⟨B, ?_, h1, by omega, h3, ?_⟩
      · simp only [scanAndCache]
        rw [hmain.1, hd]
      · intro b hb1 hb2
        exact h4 b hb1 (by omega)
  · intro hall
    have hd : descFind chain sel addr fromB cnt = none := by
      cases hd : descFind chain sel addr fromB cnt with
      | none => rfl
      | some B =>
        obtain ⟨h1, h2, h3, _⟩ := descFind_spec_some chain sel addr fromB cnt B hd
        rw [hall B h1 (by omega)] at h3
        cases h3
    simp only [scanAndCache]
    rw [hmain.1, hd]
    refine ⟨rfl, ?_⟩
    have hmax2 :
        0 < (scanLoop chain sel addr fromB now cnt
              st1).2.1.jobStatusCache.maxSize := by
      rw [hjcf.1]
      exact hmax1
    exact lru_set_entries_head _ addr _ now hmax2

/-- C1 witness: a concrete two-block range with no matching transaction:
the call returns none and the cache holds a stalled entry for the address. -/
theorem getLastWorkedBlock_C1_witness :
    (getLastWorkedBlock c1Chain "0xde" "0xabc" 5 6 0
        JobMonitorState.init).1 = none
    ∧ ∃ rest,
        (getLastWorkedBlock c1Chain "0xde" "0xabc" 5 6 0
            JobMonitorState.init).2.1.jobStatusCache.entries
          = ("0xabc", 0, ({ address := "0xabc", lastWorkedBlock := none,
                            isStalled := true, lastChecked := 0 } : JobStatus))
              :: rest := by
  exact (getLastWorkedBlock_C1_highest_match_or_stalled
      c1Chain "0xde" "0xabc" 5 6 0 JobMonitorState.init
      (by decide) rfl (by decide) (by decide)
      (by intro b h1 h2; interval_cases b <;> decide)).2
    (by intro b h1 h2; interval_cases b <;> decide)

/-- C2: checkJobsEfficiently returns exactly one JobStatus per input address
and in input order: the address projection of the output equals the input
list, so the lengths agree and the i-th output carries the i-th input
address, independently of the interleaving of the per-address evaluations
(Promise.all reassembles by index). -/
theorem checkJobsEfficiently_C2_preserves_addresses (chain : Chain)
    (sel : String) (addrs : List String) (fromB toB now : Nat)
    (st : JobMonitorState) :
    (checkJobsEfficiently chain sel addrs fromB toB now st).1.map
        JobStatus.address = addrs
    ∧ (checkJobsEfficiently chain sel addrs fromB toB now st).1.length
        = addrs.length := by
  induction addrs generalizing st with
  | nil => exact ⟨rfl, rfl⟩
  | cons a rest ih =>
    have h := ih (getLastWorkedBlock chain sel a fromB toB now st).2.1
    simp [checkJobsEfficiently, h.1, h.2]

/-- C4: on an inverted range (fromBlock greater than toBlock) the code does
not raise a validation error: getLastWorkedBlock silently returns none,
writes a stalled entry into the job-status cache and performs no chain read
at all. The specification (sections 4.2 and 9) requires an explicit
rejection with no stalled cache write instead. -/
theorem getLastWorkedBlock_C4_inverted_range_silently_stalls :
    getLastWorkedBlock (fun _ => none) "0xsel" "0xa" 5 3 0
        JobMonitorState.init
      = (none,
         { blockCache := { maxSize := 50, ttl := 1000 * 60 * 5, entries := [] },
           jobStatusCache :=
             { maxSize := 1000, ttl := 1000 * 60 * 2,
               entries := [("0xa", 0,
                            { address := "0xa", lastWorkedBlock := none,
                              isStalled := true, lastChecked := 0 })] } },
         0) := rfl

/-- C5 counterexample: single-block range whose fetch fails. The first call
returns the not-found (stalled) outcome; a second identical call 1000 ms
later (within the two-minute TTL) returns the same result but performs one
chain read instead of the zero the claim requires: a stalled entry never
short-circuits (the code demands a non-null lastWorkedBlock) and a failed
fetch is never block-cached, so the range is rescanned against the chain. -/
theorem getLastWorkedBlock_C5_counterexample :
    ((getLastWorkedBlock (fun _ => none) "0xs" "0xa" 0 0 0
        JobMonitorState.init).1 = none)
    ∧ ((getLastWorkedBlock (fun _ => none) "0xs" "0xa" 0 0 1000
          (getLastWorkedBlock (fun _ => none) "0xs" "0xa" 0 0 0
            JobMonitorState.init).2.1).1 = none)
    ∧ ((getLastWorkedBlock (fun _ => none) "0xs" "0xa" 0 0 1000
          (getLastWorkedBlock (fun _ => none) "0xs" "0xa" 0 0 0
            JobMonitorState.init).2.1).2.2 = 1) :=
  ⟨rfl, rfl, rfl⟩

/-- C5 amended: the zero-chain-read guarantee holds for the found
(non-stalled) outcome: starting from a fresh (empty) job-status cache, if
evaluate returns a block at time t0, an identical call at any time t1 within
the two-minute TTL returns the same block from the job-status cache with zero
chain reads. (The stalled outcome rescans; see the counterexample.) -/
theorem getLastWorkedBlock_C5_amended (chain : Chain) (sel addr : String)
    (fromB toB t0 t1 : Nat) (st : JobMonitorState) (B : Nat)
    (hempty : st.jobStatusCache.entries = [])
    (hmax : 0 < st.jobStatusCache.maxSize)
    (httl : st.jobStatusCache.ttl = 1000 * 60 * 2)
    (ht : t1 < t0 + 120000)
    (hfound : (getLastWorkedBlock chain sel addr fromB toB t0 st).1 = some B) :
    (getLastWorkedBlock chain sel addr fromB toB t1
        (getLastWorkedBlock chain sel addr fromB toB t0 st).2.1).1 = some B
    ∧ (getLastWorkedBlock chain sel addr fromB toB t1
        (getLastWorkedBlock chain sel addr fromB toB t0 st).2.1).2.2 = 0 := by
  have hget0 : st.jobStatusCache.get addr t0 = (none, st.jobStatusCache) :=
    lru_get_none_of_empty _ addr t0 hempty
  have hsc : shortCircuits st addr t0 = false := by
    unfold shortCircuits
    rw [hget0]
  have heq1 : getLastWorkedBlock chain sel addr fromB toB t0 st
      = scanAndCache chain sel addr fromB toB t0 st := by
    rw [getLWB_noSC chain sel addr fromB toB t0 st hsc]
    congr 1
    rw [hget0]
  rw [heq1] at hfound
  cases hd : (scanLoop chain sel addr fromB t0 (toB + 1 - fromB) st).1 with
  | none =>
    rw [scanAndCache] at hfound
    simp only [hd] at hfound
    exact Option.noConfusion hfound
  | some b =>
    rw [scanAndCache] at hfound
    simp only [hd] at hfound
    have hb : b = B := Option.some.inj hfound
    subst hb
    obtain ⟨rest, hentries⟩ :=
      scanLoop_found_status chain sel addr fromB t0 (toB + 1 - fromB) st b
        hmax hd
    have hstate : (getLastWorkedBlock chain sel addr fromB toB t0 st).2.1
        = (scanLoop chain sel addr fromB t0 (toB + 1 - fromB) st).2.1 := by
      rw [heq1, scanAndCache]
      simp only [hd]
    have httl2 : (scanLoop chain sel addr fromB t0
          (toB + 1 - fromB) st).2.1.jobStatusCache.ttl = 1000 * 60 * 2 := by
      rw [(scanLoop_jobCache_fields chain sel addr fromB t0
            (toB + 1 - fromB) st).2]
      exact httl
    have hhit : ((scanLoop chain sel addr fromB t0
          (toB + 1 - fromB) st).2.1.jobStatusCache.get addr t1).1
        = some ({ address := addr, lastWorkedBlock := some b,
                  isStalled := false, lastChecked := t0 } : JobStatus) := by
      apply lru_get_head_hit _ addr t0 _ rest _ hentries
      rw [httl2]
      omega
    rw [hstate]
    refine ⟨?_, ?_⟩ <;> simp [getLastWorkedBlock, hhit, ht]

/-- C5 witness: a chain whose block 0 holds a matching transaction; the
second call 1000 ms after the first returns the same found block with zero
chain reads. -/
theorem getLastWorkedBlock_C5_witness :
    (getLastWorkedBlock c5Chain "0xw" "0xa" 0 0 1000
        (getLastWorkedBlock c5Chain "0xw" "0xa" 0 0 0
          JobMonitorState.init).2.1).1 = some 0
    ∧ (getLastWorkedBlock c5Chain "0xw" "0xa" 0 0 1000
        (getLastWorkedBlock c5Chain "0xw" "0xa" 0 0 0
          JobMonitorState.init).2.1).2.2 = 0 :=
  getLastWorkedBlock_C5_amended c5Chain "0xw" "0xa" 0 0 0 1000
    JobMonitorState.init 0 rfl (by decide) rfl (by decide) rfl

end JobMonitor

namespace Jobs2

/-- C3 counterexample: when the per-address evaluation rejects, the entry
checkMultipleJobs produces for that address is the stalled placeholder
without any error field carrying the reason: at the rejecting oracle the
output entry has error none, not the claimed error boom. -/
theorem checkMultipleJobs_C3_counterexample :
    checkMultipleJobs (fun _ => .error "boom") ["0xjob"]
      = [{ address := "0xjob", lastWorkedBlock := none,
           isStalled := true, error := none }]
    ∧ (checkMultipleJobs (fun _ => .error "boom") ["0xjob"]).map
        MultiJobResult.error ≠ [some "boom"] :=
  ⟨rfl, by decide⟩

/-- C3 amended: a rejected per-address evaluation is caught and converted
into a stalled entry carrying the input address, a null lastWorkedBlock and
no error field (the reason is only logged); the batch call always returns one
entry per input address, so the rejection is never propagated. -/
theorem checkMultipleJobs_C3_amended
    (evalJob : String → Except String (Option Nat)) (addrs : List String)
    (i : Nat) (hi : i < addrs.length) (r : String)
    (herr : evalJob (addrs.get ⟨i, hi⟩) = .error r) :
    (checkMultipleJobs evalJob addrs).length = addrs.length
    ∧ ∀ hl : i < (checkMultipleJobs evalJob addrs).length,
        (checkMultipleJobs evalJob addrs).get ⟨i, hl⟩
          = { address := addrs.get ⟨i, hi⟩, lastWorkedBlock := none,
              isStalled := true, error := none } := by
  refine ⟨by simp [checkMultipleJobs], ?_⟩
  intro hl
  unfold checkMultipleJobs
  simp only [List.get_eq_getElem, List.getElem_map]
  have hg : addrs[i] = addrs.get ⟨i, hi⟩ := rfl
  rw [hg, herr]

/-- C3 witness: a two-address batch whose second evaluation rejects yields a
full-length result whose second entry is the stalled placeholder. -/
theorem checkMultipleJobs_C3_witness :
    (checkMultipleJobs
        (fun a => if a == "b" then .error "down" else .ok (some 7))
        ["a", "b"]).length = 2
    ∧ (checkMultipleJobs
        (fun a => if a == "b" then .error "down" else .ok (some 7))
        ["a", "b"]).get ⟨1, by decide⟩
        = { address := "b", lastWorkedBlock := none,
            isStalled := true, error := none } := by
  have h := checkMultipleJobs_C3_amended
    (fun a => if a == "b" then .error "down" else .ok (some 7))
    ["a", "b"] 1 (by decide) "down" rfl
  exact ⟨h.1, h.2 (by decide)⟩

end Jobs2

namespace Sequencer

/-- C6 counterexample: count resolves to 1 but the only index lookup
rejects; getAllJobs (the batched Promise.all variant) rejects as a whole
instead of dropping the failed index as the claim asserts. -/
theorem getAllJobs_C6_counterexample :
    (getAllJobs (.ok 1) (fun _ => .error "lookup failed")
        SeqState.init 0).1 = .error "lookup failed" := by
  have hfb : fetchBatches (fun _ => .error "lookup failed") 1 0 []
      = .error "lookup failed" := by
    rw [fetchBatches]
    rfl
  rw [getAllJobs]
  rw [show SeqState.init.jobsCache.get "all-jobs" 0
      = (none, SeqState.init.jobsCache)
    from JobMonitor.lru_get_none_of_empty _ _ 0 rfl]
  simp only [hfb]

theorem collectFulfilled_eq_filterMap (f : Nat → Except String String)
    (l : List Nat) :
    collectFulfilled (l.map f)
      = l.filterMap (fun i => (f i).toOption) := by
  induction l with
  | nil => rfl
  | cons a t ih =>
    cases hf : f a with
    | ok v => simp [collectFulfilled, hf, ih, Except.toOption]
    | error e => simp [collectFulfilled, hf, ih, Except.toOption]

/-- C6 amended: the parallel variant getAllJobsOptimized has the claimed
behavior: on a cache miss it succeeds whenever count succeeds, returning
exactly the fulfilled index lookups in ascending index order with failed
indices dropped, and it fails only when count itself fails. The batched
getAllJobs instead propagates a single failed lookup (see counterexample). -/
theorem getAllJobsOptimized_C6_amended (jobAtR : Nat → Except String String)
    (n : Nat) (st : SeqState) (now : Nat)
    (hmiss : st.jobsCache.get "all-jobs-optimized" now
      = (none, (st.jobsCache.get "all-jobs-optimized" now).2)) :
    (getAllJobsOptimized (.ok n) jobAtR st now).1
        = .ok ((List.range n).filterMap (fun i => (jobAtR i).toOption))
    ∧ ∀ e, (getAllJobsOptimized (.error e) jobAtR st now).1 = .error e := by
  constructor
  · rw [getAllJobsOptimized, hmiss]
    by_cases hn : n = 0
    · subst hn
      rfl
    · have hn' : (n == 0) = false := by simpa using hn
      simp only [hn', Bool.false_eq_true, if_false,
        collectFulfilled_eq_filterMap]
  · intro e
    rw [getAllJobsOptimized, hmiss]

/-- C6 witness: three indices with the middle lookup failing: the optimized
fetch succeeds and returns the first and third addresses in order; a failing
count propagates. -/
theorem getAllJobsOptimized_C6_witness :
    (getAllJobsOptimized (.ok 3)
        (fun i => if i == 1 then .error "down" else .ok (toString i))
        SeqState.init 0).1 = .ok ["0", "2"]
    ∧ (getAllJobsOptimized (.error "count failed")
        (fun i => if i == 1 then .error "down" else .ok (toString i))
        SeqState.init 0).1 = .error "count failed" := by
  have h := getAllJobsOptimized_C6_amended
    (fun i => if i == 1 then .error "down" else .ok (toString i))
    3 SeqState.init 0 rfl
  refine ⟨?_, h.2 "count failed"⟩
  rw [h.1]
  rfl

end Sequencer

namespace Discord

/-- C8: an attempt receiving a 401, 403 or 404 response makes sendWithRetry
raise the DiscordError at once: exactly one POST happens, no suspension
follows, no further attempt is made and the fallback path is not invoked
inside the call. -/
theorem sendWithRetry_C8_fatal_status (net : Nat → AttemptOutcome)
    (fuel : Nat) (kind : MsgKind) (s : Nat) (ra : Option Nat) (body : String)
    (hs : s = 401 ∨ s = 403 ∨ s = 404)
    (hnet : net 0 = .http s ra body) :
    sendWithRetry net (fuel + 1) kind 0
      = (.raised (mkHttpErr s body), [.post kind], 1) := by
  have hloop : attemptLoop net kind MAX_RETRIES 1 0 none
      = (.thrown (mkHttpErr s body), [.post kind], 1) := by
    show attemptLoop net kind (2 + 1) 1 0 none = _
    rcases hs with h | h | h <;> subst h <;>
      simp [attemptLoop, hnet, MAX_RETRIES, RETRY_DELAY]
  simp [sendWithRetry, hloop]

/-- C8 witness: a webhook answering 404 produces an immediate raised
DiscordError after a single POST and no fallback. -/
theorem sendWithRetry_C8_witness :
    sendWithRetry (fun _ => .http 404 none "Not Found") (0 + 1) .embed 0
      = (.raised (mkHttpErr 404 "Not Found"), [.post .embed], 1) :=
  sendWithRetry_C8_fatal_status (fun _ => .http 404 none "Not Found") 0
    .embed 404 none "Not Found" (Or.inr (Or.inr rfl)) rfl

/-- C7 counterexample: a 500 response is a retryable non-429 failure at
attempt 1 < maximum, yet the trace of a 500-then-success run holds two POSTs
and no suspension between them, where the claim requires a suspension of
base delay times 1 = 1000 ms before the second attempt. -/
theorem sendWithRetry_C7_counterexample :
    sendWithRetry (fun i => if i == 0 then .http 500 none "oops" else .ok)
        1 .embed 0
      = (.success, [.post .embed, .post .embed], 2) := rfl

/-- C7 amended: the linear backoff (base delay times the attempt number,
before a non-final attempt) applies exactly to the transport-error path of
the retry loop; a non-2xx response other than 429, 401, 403 and 404 records
the error and proceeds to the next attempt at once, with no suspension. -/
theorem attemptLoop_C7_amended (net : Nat → AttemptOutcome) (kind : MsgKind)
    (remaining attempt idx : Nat) (lastErr : Option DiscordErr) :
    (∀ m, net idx = .transportError m → attempt < MAX_RETRIES →
      attemptLoop net kind (remaining + 1) attempt idx lastErr
        = ((attemptLoop net kind remaining (attempt + 1) (idx + 1)
              (some { message := m, statusCode := none })).1,
           .post kind :: .sleep (RETRY_DELAY * attempt)
             :: (attemptLoop net kind remaining (attempt + 1) (idx + 1)
                  (some { message := m, statusCode := none })).2.1,
           (attemptLoop net kind remaining (attempt + 1) (idx + 1)
              (some { message := m, statusCode := none })).2.2))
    ∧ (∀ s ra body, net idx = .http s ra body →
        s ≠ 404 → s ≠ 401 → s ≠ 403 → s ≠ 429 →
        attemptLoop net kind (remaining + 1) attempt idx lastErr
          = ((attemptLoop net kind remaining (attempt + 1) (idx + 1)
                (some (mkHttpErr s body))).1,
             .post kind
               :: (attemptLoop net kind remaining (attempt + 1) (idx + 1)
                    (some (mkHttpErr s body))).2.1,
             (attemptLoop net kind remaining (attempt + 1) (idx + 1)
                (some (mkHttpErr s body))).2.2)) := by
  constructor
  · intro m hnet hlt
    simp [attemptLoop, hnet, hlt]
  · intro s ra body hnet h404 h401 h403 h429
    have hc1 : (s == 404 || s == 401 || s == 403) = false := by
      simp [h404, h401, h403]
    have hc2 : (s == 429) = false := by simp [h429]
    simp [attemptLoop, hnet, hc1, hc2]

/-- C7 witness: three transport errors in a row produce the linear backoff
trace: suspensions of 1000 ms and 2000 ms after the first two attempts and
none after the final one. -/
theorem attemptLoop_C7_witness :
    attemptLoop (fun _ => .transportError "boom") .embed (2 + 1) 1 0 none
      = (.exhausted (some { message := "boom", statusCode := none }),
         [.post .embed, .sleep 1000, .post .embed, .sleep 2000, .post .embed],
         3) := by
  rw [(attemptLoop_C7_amended (fun _ => .transportError "boom") .embed 2 1 0
      none).1 "boom" rfl (by decide)]
  rfl

/-- C9 counterexample: three 500 responses exhaust the attempts; the fallback
plain-text path then also fails three times with 500, upon which the
dispatcher invokes a second fallback instead of raising a terminal error:
two fallback invocations appear in the trace and the call ultimately
succeeds when the second fallback POST goes through. -/
theorem sendWithRetry_C9_counterexample :
    sendWithRetry (fun i => if i ≤ 5 then .http 500 none "err" else .ok)
        3 .embed 0
      = (.success,
         [.post .embed, .post .embed, .post .embed, .fallback,
          .post .simpleText, .post .simpleText, .post .simpleText, .fallback,
          .post .simpleText], 7)
    ∧ fallbackCount (sendWithRetry
        (fun i => if i ≤ 5 then .http 500 none "err" else .ok)
        3 .embed 0).2.1 = 2 :=
  ⟨rfl, rfl⟩

/-- C9 amended: after three retryable failures exactly one fallback
plain-text send is attempted when the fallback does not itself exhaust
retryably; when the fallback path throws (here a 404 on the plain-text
POST), the call raises the terminal aggregate DiscordError with status 500
whose message embeds the original failure cause (the fallback failure cause
is only logged, not aggregated). -/
theorem sendWithRetry_C9_amended (b1 b2 b3 b4 : String) (fuel : Nat) :
    sendWithRetry
        (fun i => if i == 0 then .http 500 none b1
          else if i == 1 then .http 500 none b2
          else if i == 2 then .http 500 none b3
          else .http 404 none b4) (fuel + 1 + 1) .embed 0
      = (.raised { message :=
                     "All Discord communication methods failed. Original: "
                       ++ (mkHttpErr 500 b3).message,
                   statusCode := some 500 },
         [.post .embed, .post .embed, .post .embed, .fallback,
          .post .simpleText], 4) := rfl

/-- C10: the DiscordService constructor accepts exactly the URLs containing
the Discord webhook marker substring (an empty URL is rejected by the first
falsiness check and cannot contain it anyway); every constructed instance
therefore stores a URL containing discord.com/api/webhooks, and every send
targets that stored URL. -/
theorem constructorCheck_C10_validates (url : String) :
    ((∃ u, constructorCheck url = .ok u)
        ↔ jsIncludes url "discord.com/api/webhooks" = true)
    ∧ (∀ u, constructorCheck url = .ok u →
        u = url ∧ jsIncludes u "discord.com/api/webhooks" = true)
    ∧ (jsIncludes url "discord.com/api/webhooks" = false →
        ∃ e, constructorCheck url = .error e) := by
  by_cases h0 : url = ""
  · subst h0
    have hinc : jsIncludes "" "discord.com/api/webhooks" = false := by decide
    simp [constructorCheck, hinc]
  · have h0' : (url == "") = false := by simp [h0]
    cases hinc : jsIncludes url "discord.com/api/webhooks" with
    | true => simp [constructorCheck, h0', hinc]
    | false => simp [constructorCheck, h0', hinc]

/-- C10 witness: a well-formed webhook URL is accepted and stored as is. -/
theorem constructorCheck_C10_witness :
    constructorCheck "https://discord.com/api/webhooks/1/t"
      = .ok "https://discord.com/api/webhooks/1/t"
    ∧ jsIncludes "https://discord.com/api/webhooks/1/t"
        "discord.com/api/webhooks" = true := by
  obtain ⟨u, hu⟩ := (constructorCheck_C10_validates
      "https://discord.com/api/webhooks/1/t").1.mpr (by decide)
  obtain ⟨h1, h2⟩ := (constructorCheck_C10_validates
      "https://discord.com/api/webhooks/1/t").2.1 u hu
  subst h1
  exact ⟨hu, h2⟩

end Discord
